import Mathlib

/-!
Shallow embedding of `computer_use_agent.py` (a Gemini computer-use browser
agent).  Pure helpers (`denormalize_coordinate`, `sanitize_text`,
`collect_function_calls`, `extract_text_response`) are translated directly.
The external collaborators — the Playwright page and the model endpoint —
are modelled as oracles: every page call is recorded as an `Event` in a
trace, and an `Oracle` decides, from the history so far, whether the call
raises (and with which message).  Python floats are modelled as exact
rationals; `int(x)` is truncation toward zero; Python's `str.isprintable`
(a Unicode-table builtin) is an explicit `Char → Bool` parameter, with an
ASCII-exact instantiation used for concrete test inputs.
-/

namespace CUA

/-- Constants from the top of `computer_use_agent.py`. -/
def SCREEN_WIDTH : ℕ := 1440

/-- Screen height constant. -/
def SCREEN_HEIGHT : ℕ := 900

/-- Turn budget of the agent loop. -/
def MAX_TURNS : ℕ := 5

/-- Maximum number of characters `sanitize_text` keeps. -/
def MAX_TYPABLE_CHARS : ℕ := 1024

/-- The allow-list of action names the executor will dispatch
(`SAFE_ACTIONS` in the source; a frozenset there, membership-only here). -/
def SAFE_ACTIONS : List String := ["open_web_browser", "click_at", "type_text_at"]

/-- Python `int(q)` on an exact rational: truncation toward zero. -/
def pyInt (q : ℚ) : ℤ := if 0 ≤ q then ⌊q⌋ else ⌈q⌉

/-- Translation of `denormalize_coordinate(value, dimension)`:
clamp the model coordinate into [0, 1000], scale by `dimension / 1000`,
truncate to an integer pixel.  The Python float arithmetic is modelled as
exact rational arithmetic. -/
def denormalize_coordinate (value : ℚ) (dimension : ℕ) : ℤ :=
  let clamped : ℚ := max 0 (min 1000 value)
  pyInt (clamped / 1000 * dimension)

/-- Values a model-supplied argument (or any object handed to
`sanitize_text`) may take.  JSON-style scalars only; Python floats are
carried as exact rationals. -/
inductive PyVal where
  | none
  | str (s : String)
  | intVal (n : ℤ)
  | floatVal (q : ℚ)
  | boolVal (b : Bool)
deriving DecidableEq

/-- Decimal rendering of a rational that is a decimal fraction: the least
exponent `k ≤ 27` with `q * 10^k` integral, if any. -/
def decExp (q : ℚ) : Option ℕ := (List.range 28).find? (fun k => (q * 10 ^ k).den = 1)

/-- Digit string of `n` left-padded with zeros to length `k + 1`. -/
def padDigits (n : ℕ) (k : ℕ) : List Char :=
  let s := (toString n).data
  List.replicate (k + 1 - s.length) '0' ++ s

/-- Python `str(f)` for a float value, modelled for values that are decimal
fractions (the shortest-roundtrip behaviour of CPython float repr is out of
scope; no verified claim depends on this rendering). -/
def floatRepr (q : ℚ) : String :=
  match decExp q with
  | Option.some 0 => toString q.num ++ ".0"
  | Option.some (k + 1) =>
      let ds := padDigits (q * 10 ^ (k + 1) : ℚ).num.natAbs (k + 1)
      let sign := if q < 0 then "-" else ""
      sign ++ String.mk (ds.take (ds.length - (k + 1))) ++ "." ++
        String.mk (ds.drop (ds.length - (k + 1)))
  | Option.none => toString q.num ++ "/" ++ toString q.den

/-- Python `str(v)` on the modelled values. -/
def pyStr : PyVal → String
  | PyVal.none => "None"
  | PyVal.str s => s
  | PyVal.intVal n => toString n
  | PyVal.floatVal q => floatRepr q
  | PyVal.boolVal b => if b then "True" else "False"

/-- Python truthiness `bool(v)` on the modelled values. -/
def pyTruthy : PyVal → Bool
  | PyVal.none => false
  | PyVal.str s => s ≠ ""
  | PyVal.intVal n => n ≠ 0
  | PyVal.floatVal q => q ≠ 0
  | PyVal.boolVal b => b

/-- Character filter used by `sanitize_text`: keep a character when it is
printable or one of newline, carriage return, tab. -/
def keepChar (isPr : Char → Bool) (c : Char) : Bool :=
  isPr c || (c == '\n' || c == '\r' || c == '\t')

/-- Translation of `sanitize_text(text)`: `str(text)` unless the input is
absent (then the empty string), filter through `keepChar`, join, keep the
first `MAX_TYPABLE_CHARS` characters.  `isPr` stands for Python's
`str.isprintable` applied to a single character. -/
def sanitize_text (isPr : Char → Bool) (text : PyVal) : String :=
  let raw : String := match text with
    | PyVal.none => ""
    | t => pyStr t
  String.mk ((raw.data.filter (keepChar isPr)).take MAX_TYPABLE_CHARS)

/-- Python's `str.isprintable` restricted to the ASCII plane: code points
32–126 are printable, everything below 32 and 127 are not.  Agrees with
CPython on every ASCII character; concrete witnesses only use ASCII. -/
def asciiIsPrintable (c : Char) : Bool := 32 ≤ c.toNat && c.toNat ≤ 126

/-- A function call proposed by the model: a name plus an argument bag. -/
structure FunctionCall where
  name : String
  args : List (String × PyVal)
deriving DecidableEq

/-- Lookup with default, modelling `args.get(key, default)`. -/
def argGet : List (String × PyVal) → String → PyVal → PyVal
  | [], _, dflt => dflt
  | (k, v) :: rest, key, dflt => if k = key then v else argGet rest key dflt

/-- Digit-list to natural number. -/
def natOfDigits (l : List Char) : ℕ := l.foldl (fun a c => 10 * a + (c.toNat - 48)) 0

/-- Python `float(s)` on a string, modelled for plain decimal literals
(optional sign, digits, optional fractional part); other forms raise.
CPython additionally strips whitespace and accepts exponents, infinities
and underscores — no verified claim exercises those forms. -/
def parseDecimal (s : String) : Option ℚ :=
  let (sign, rest) : ℚ × List Char := match s.data with
    | '-' :: r => (-1, r)
    | '+' :: r => (1, r)
    | r => (1, r)
  let intPart := rest.takeWhile Char.isDigit
  let rest2 := rest.dropWhile Char.isDigit
  match rest2 with
  | [] =>
      if intPart = [] then Option.none
      else Option.some (sign * natOfDigits intPart)
  | '.' :: fr =>
      if fr.all Char.isDigit && !(intPart = [] && fr = []) then
        Option.some (sign * ((natOfDigits intPart : ℚ) +
          (natOfDigits fr : ℚ) / 10 ^ fr.length))
      else Option.none
  | _ => Option.none

/-- Python `float(v)` on a modelled argument value: numbers and bools
convert, `None` raises a `TypeError`, strings parse as decimal literals or
raise a `ValueError`. -/
def pyFloat : PyVal → Except String ℚ
  | PyVal.intVal n => Except.ok (n : ℚ)
  | PyVal.floatVal q => Except.ok q
  | PyVal.boolVal b => Except.ok (if b then 1 else 0)
  | PyVal.none => Except.error "float() argument must be a string or a real number, not NoneType"
  | PyVal.str s =>
      match parseDecimal s with
      | Option.some q => Except.ok q
      | Option.none => Except.error ("could not convert string to float: " ++ s)

/-- One call against the Playwright page (the automation surface).  Every
attempted call is recorded in a run-wide trace, in order. -/
inductive Event where
  | goto
  | screenshot
  | readUrl
  | click (x y : ℤ)
  | keyPress (key : String)
  | typeText (s : String)
  | waitForLoadState
  | sleep
deriving DecidableEq

/-- The automation surface as an oracle: given the history of calls so far
and the call being attempted, it either succeeds (`Option.none`) or raises
an exception with the given message. -/
def Oracle : Type := List Event → Event → Option String

/-- Attempt a list of page calls in order, appending each attempted call to
the trace; stop at the first call the oracle makes raise. -/
def runEvents (o : Oracle) : List Event → List Event → List Event × Option String
  | hist, [] => (hist, Option.none)
  | hist, e :: es =>
      match o hist e with
      | Option.some msg => (hist ++ [e], Option.some msg)
      | Option.none => runEvents o (hist ++ [e]) es

/-- Result dictionary attached to one executed action: `{status: ok}` or
`{error: message}` (the source builds these as one-key string dicts). -/
inductive ActionResult where
  | ok
  | error (msg : String)
deriving DecidableEq

/-- Page calls one allow-listed action performs, in source order
(`execute_function_calls` body, lines 100–121): the per-kind dispatch
followed by `wait_for_load_state` and the settle `sleep`.  Argument
coercion (`float` inside `denormalize_coordinate`) happens before any page
call and may raise, in which case no call is attempted. -/
def dispatchEvents (isPr : Char → Bool) (w h : ℕ) (fname : String)
    (args : List (String × PyVal)) : Except String (List Event) :=
  if fname = "open_web_browser" then
    Except.ok [Event.waitForLoadState, Event.sleep]
  else if fname = "click_at" then
    match pyFloat (argGet args "x" (PyVal.intVal 0)) with
    | Except.error m => Except.error m
    | Except.ok vx =>
        match pyFloat (argGet args "y" (PyVal.intVal 0)) with
        | Except.error m => Except.error m
        | Except.ok vy =>
            Except.ok [Event.click (denormalize_coordinate vx w) (denormalize_coordinate vy h),
              Event.waitForLoadState, Event.sleep]
  else if fname = "type_text_at" then
    match pyFloat (argGet args "x" (PyVal.intVal 0)) with
    | Except.error m => Except.error m
    | Except.ok vx =>
        match pyFloat (argGet args "y" (PyVal.intVal 0)) with
        | Except.error m => Except.error m
        | Except.ok vy =>
            let text := sanitize_text isPr (argGet args "text" (PyVal.str ""))
            let pressEnter := pyTruthy (argGet args "press_enter" (PyVal.boolVal false))
            Except.ok ([Event.click (denormalize_coordinate vx w) (denormalize_coordinate vy h),
                Event.keyPress "Meta+A", Event.keyPress "Backspace", Event.typeText text] ++
              (if pressEnter then [Event.keyPress "Enter"] else []) ++
              [Event.waitForLoadState, Event.sleep])
  else
    Except.ok [Event.waitForLoadState, Event.sleep]

/-- One iteration of the executor loop body: allow-list check, dispatch
with per-action `try/except`.  Returns the `(name, result)` pair and the
extended trace; an unsupported name touches the page not at all. -/
def execOne (isPr : Char → Bool) (o : Oracle) (w h : ℕ) (hist : List Event)
    (fc : FunctionCall) : (String × ActionResult) × List Event :=
  if fc.name ∈ SAFE_ACTIONS then
    match dispatchEvents isPr w h fc.name fc.args with
    | Except.error m => ((fc.name, ActionResult.error m), hist)
    | Except.ok evs =>
        match runEvents o hist evs with
        | (hist1, Option.none) => ((fc.name, ActionResult.ok), hist1)
        | (hist1, Option.some m) => ((fc.name, ActionResult.error m), hist1)
  else
    ((fc.name, ActionResult.error "unsupported_function"), hist)

/-- The executor loop over a list of proposed calls: every call yields
exactly one result, each action's page calls starting from the trace the
previous action left behind. -/
def execCallsList (isPr : Char → Bool) (o : Oracle) (w h : ℕ) :
    List Event → List FunctionCall → List (String × ActionResult) × List Event
  | hist, [] => ([], hist)
  | hist, fc :: rest =>
      let (r, hist1) := execOne isPr o w h hist fc
      let (rs, hist2) := execCallsList isPr o w h hist1 rest
      (r :: rs, hist2)

/-- A tool response sent back to the model: the action name, the merged
`{url: ...} ∪ result` payload (insertion order: url first), and the shared
screenshot attached as inline image data. -/
structure FunctionResponse where
  name : String
  response : List (String × String)
  mimeType : String
  imageData : List UInt8
deriving DecidableEq

/-- Key/value fields of one action result dictionary. -/
def resultFields : ActionResult → List (String × String)
  | ActionResult.ok => [("status", "ok")]
  | ActionResult.error m => [("error", m)]

/-- Observation oracle: the outcome of a `page.screenshot()` call given the
trace so far (bytes, or a raised message), and the value of `page.url`. -/
structure ObsOracle where
  shot : List Event → Except String (List UInt8)
  url : List Event → String

/-- Translation of `get_function_responses(page, results)`: capture one
screenshot (substituting `b""` if the capture raises), read the current
url once, then build one response per result, all sharing the same image
and url. -/
def get_function_responses (obs : ObsOracle) (hist : List Event)
    (results : List (String × ActionResult)) : List FunctionResponse × List Event :=
  let bytes : List UInt8 := match obs.shot hist with
    | Except.ok b => b
    | Except.error _ => []
  let hist1 := hist ++ [Event.screenshot]
  let u := obs.url hist1
  let hist2 := hist1 ++ [Event.readUrl]
  (results.map (fun nr =>
      { name := nr.1
        response := ("url", u) :: resultFields nr.2
        mimeType := "image/png"
        imageData := bytes }), hist2)

/-- One part of a model/user content: text, inline image, a proposed
function call, or a function response. -/
inductive Part where
  | text (s : String)
  | image (data : List UInt8)
  | functionCall (fc : FunctionCall)
  | functionResponse (fr : FunctionResponse)
deriving DecidableEq

/-- A conversation entry: a role plus parts. -/
structure Content where
  role : String
  parts : List Part
deriving DecidableEq

/-- A model candidate; its `content` attribute may be absent (`None`). -/
structure Candidate where
  content : Option Content
deriving DecidableEq

/-- Parts of a possibly-absent content, modelling
`getattr(candidate.content, "parts", []) or []`. -/
def candParts : Option Content → List Part
  | Option.none => []
  | Option.some c => c.parts

/-- Truthiness test for `getattr(part, "function_call", None)`. -/
def partFunctionCall : Part → Option FunctionCall
  | Part.functionCall fc => Option.some fc
  | _ => Option.none

/-- Translation of `collect_function_calls(candidate)`: the function calls
of the candidate's parts, in order; an absent content yields none. -/
def collect_function_calls (cand : Candidate) : List FunctionCall :=
  match cand.content with
  | Option.none => []
  | Option.some c => c.parts.filterMap partFunctionCall

/-- Translation of `execute_function_calls(candidate, page, w, h)`: run the
executor loop over the candidate's collected calls. -/
def execute_function_calls (isPr : Char → Bool) (o : Oracle) (w h : ℕ)
    (cand : Candidate) (hist : List Event) :
    List (String × ActionResult) × List Event :=
  execCallsList isPr o w h hist (collect_function_calls cand)

/-- Text of a part, modelling `getattr(part, "text", "")`. -/
def partText : Part → String
  | Part.text s => s
  | _ => ""

/-- Translation of `extract_text_response(parts)`: strip each part's text,
drop the empty ones, join with single spaces.  (Python `str.strip` removes
a slightly larger whitespace set than `String.trim`; no claim depends on
the difference.) -/
def extract_text_response (parts : List Part) : String :=
  String.intercalate " " ((parts.map (fun p => (partText p).trim)).filter (fun s => s ≠ ""))

/-- Outcome of one `client.models.generate_content` call: a raised
transport/API exception, or a reply with a (possibly empty) candidate
list. -/
inductive ModelOutcome where
  | raise (msg : String)
  | reply (candidates : List Candidate)

/-- Everything external a run consumes: the model endpoint (indexed by the
turn number of the call), the page-action oracle, the observation oracle,
and whether `page.goto` raises during navigation. -/
structure RunEnv where
  model : ℕ → ModelOutcome
  oracle : Oracle
  obs : ObsOracle
  gotoErr : Option String
  isPr : Char → Bool

/-- How a run ended: the model produced a final text (FINISHED), a model
call failed or returned no candidates (STOPPED_ERROR), the turn budget ran
out (STOPPED_BUDGET), or an exception escaped the `try` body during
navigation and propagated past the `finally` (RAISED). -/
inductive RunOutcome where
  | finished
  | stoppedError
  | stoppedBudget
  | raised (msg : String)
deriving DecidableEq

/-- Observable result of a run: how many model calls were made, how many
action results the executor produced in total, whether `browser.close()`
ran, the outcome, the surfaced final text, the page-call trace, and the
final conversation (entries may be `None` when a candidate had no
content, as in the source's unconditional `contents.append`). -/
structure RunResult where
  modelCalls : ℕ
  actionsExecuted : ℕ
  browserClosed : Bool
  outcome : RunOutcome
  finalText : Option String
  trace : List Event
  contents : List (Option Content)

/-- The `for turn in range(1, MAX_TURNS + 1)` loop of `run_agent`, with
`fuel` iterations left.  Mirrors the body: model call (counted), `break`
on a raised call or an empty candidate list, append the candidate content,
finish when it has no function calls, otherwise execute the calls, fold
the observations into the conversation, and continue; the `for`-`else`
branch (budget exhausted) is the `fuel = 0` case.  `browser.close()` sits
in a `finally`, so every exit records `browserClosed := true`. -/
def runLoop (env : RunEnv) (w h : ℕ) :
    ℕ → ℕ → List (Option Content) → List Event → ℕ → ℕ → RunResult
  | 0, _, contents, trace, mc, ae =>
      { modelCalls := mc, actionsExecuted := ae, browserClosed := true,
        outcome := RunOutcome.stoppedBudget, finalText := Option.none,
        trace := trace, contents := contents }
  | fuel + 1, turn, contents, trace, mc, ae =>
      match env.model turn with
      | ModelOutcome.raise _ =>
          { modelCalls := mc + 1, actionsExecuted := ae, browserClosed := true,
            outcome := RunOutcome.stoppedError, finalText := Option.none,
            trace := trace, contents := contents }
      | ModelOutcome.reply [] =>
          { modelCalls := mc + 1, actionsExecuted := ae, browserClosed := true,
            outcome := RunOutcome.stoppedError, finalText := Option.none,
            trace := trace, contents := contents }
      | ModelOutcome.reply (cand :: _) =>
          let contents1 := contents ++ [cand.content]
          if (candParts cand.content).any (fun p => (partFunctionCall p).isSome) then
            let re := execute_function_calls env.isPr env.oracle w h cand trace
            let fr := get_function_responses env.obs re.2 re.1
            let contents2 := contents1 ++
              [Option.some { role := "user", parts := fr.1.map Part.functionResponse }]
            runLoop env w h fuel (turn + 1) contents2 fr.2 (mc + 1) (ae + re.1.length)
          else
            { modelCalls := mc + 1, actionsExecuted := ae, browserClosed := true,
              outcome := RunOutcome.finished,
              finalText := Option.some (extract_text_response (candParts cand.content)),
              trace := trace, contents := contents1 }

/-- Translation of `run_agent(user_prompt)`: navigate (a raised `goto` or
initial-screenshot exception propagates, with the browser still closed by
the `finally`), seed the conversation with the prompt and the initial
screenshot, then run the turn loop with budget `MAX_TURNS`. -/
def run_agent (env : RunEnv) (userPrompt : String) : RunResult :=
  match env.gotoErr with
  | Option.some m =>
      { modelCalls := 0, actionsExecuted := 0, browserClosed := true,
        outcome := RunOutcome.raised m, finalText := Option.none,
        trace := [Event.goto], contents := [] }
  | Option.none =>
      let trace0 := [Event.goto]
      match env.obs.shot trace0 with
      | Except.error m =>
          { modelCalls := 0, actionsExecuted := 0, browserClosed := true,
            outcome := RunOutcome.raised m, finalText := Option.none,
            trace := trace0 ++ [Event.screenshot], contents := [] }
      | Except.ok shotBytes =>
          let seed : Content :=
            { role := "user", parts := [Part.text userPrompt, Part.image shotBytes] }
          let contents0 : List (Option Content) := [Option.some seed]
          runLoop env SCREEN_WIDTH SCREEN_HEIGHT MAX_TURNS 1 contents0
            (trace0 ++ [Event.screenshot]) 0 0

/-- Textual form `sanitize_text` filters: `str(text)` unless absent. -/
def rawText : PyVal → String
  | PyVal.none => ""
  | t => pyStr t

/-- Key-press events (`page.keyboard.press`) among the page calls. -/
def isKeyPress : Event → Bool
  | Event.keyPress _ => true
  | _ => false

/-- The page calls a `type_text_at` action with resolved coordinates
`qx, qy` performs: focus click, select-all, delete, type the sanitized
text, Enter when the flag is truthy, then the load-state wait and the
settle delay. -/
def typeTextEvents (isPr : Char → Bool) (w h : ℕ) (args : List (String × PyVal))
    (qx qy : ℚ) : List Event :=
  [Event.click (denormalize_coordinate qx w) (denormalize_coordinate qy h),
    Event.keyPress "Meta+A", Event.keyPress "Backspace",
    Event.typeText (sanitize_text isPr (argGet args "text" (PyVal.str "")))] ++
  (if pyTruthy (argGet args "press_enter" (PyVal.boolVal false))
    then [Event.keyPress "Enter"] else []) ++
  [Event.waitForLoadState, Event.sleep]

/-- The model call produced a candidate whose content carries at least one
function call (the loop's `has_function_calls` test succeeds). -/
def proposesActions : ModelOutcome → Prop
  | ModelOutcome.reply (cand :: _) =>
      (candParts cand.content).any (fun p => (partFunctionCall p).isSome) = true
  | _ => False

/-- An oracle on which no page call ever raises. -/
def oracleNone : Oracle := fun _ _ => Option.none

/-- An oracle that raises exactly on the load-state wait. -/
def oracleBoom : Oracle := fun _ e =>
  match e with
  | Event.waitForLoadState => Option.some "boom"
  | _ => Option.none

/-- Observation oracle whose screenshot always succeeds with no bytes. -/
def obsOk : ObsOracle :=
  { shot := fun _ => Except.ok [], url := fun _ => "https://finance.yahoo.com/" }

/-- A candidate that proposes one `open_web_browser` action. -/
def candProposer : Candidate :=
  { content := Option.some
      { role := "model", parts := [Part.functionCall { name := "open_web_browser", args := [] }] } }

/-- Run environment in which the model proposes an action on every turn
and nothing ever raises. -/
def envAllActions : RunEnv :=
  { model := fun _ => ModelOutcome.reply [candProposer]
    oracle := oracleNone
    obs := obsOk
    gotoErr := Option.none
    isPr := asciiIsPrintable }

/-- Run environment in which the very first model call raises. -/
def envModelRaises : RunEnv :=
  { model := fun _ => ModelOutcome.raise "503 transport error"
    oracle := oracleNone
    obs := obsOk
    gotoErr := Option.none
    isPr := asciiIsPrintable }

/-- Arguments of a concrete `type_text_at` call used as a test input. -/
def argsTypeEnter : List (String × PyVal) :=
  [("x", PyVal.floatVal 100), ("y", PyVal.floatVal 200),
   ("text", PyVal.str "hi"), ("press_enter", PyVal.boolVal true)]

/-! Shared lemmas. -/

lemma sanitize_eq_raw (isPr : Char → Bool) (t : PyVal) :
    sanitize_text isPr t =
      String.mk (((rawText t).data.filter (keepChar isPr)).take MAX_TYPABLE_CHARS) := by
  cases t <;> rfl

lemma sanitize_data (isPr : Char → Bool) (t : PyVal) :
    (sanitize_text isPr t).data =
      ((rawText t).data.filter (keepChar isPr)).take MAX_TYPABLE_CHARS := by
  rw [sanitize_eq_raw]

lemma mem_sanitize {isPr : Char → Bool} {t : PyVal} {c : Char}
    (h : c ∈ (sanitize_text isPr t).data) : keepChar isPr c = true := by
  rw [sanitize_data] at h
  exact (List.mem_filter.mp ((List.take_sublist _ _).subset h)).2

lemma sanitize_length_le (isPr : Char → Bool) (t : PyVal) :
    (sanitize_text isPr t).length ≤ MAX_TYPABLE_CHARS := by
  rw [sanitize_eq_raw]
  show (((rawText t).data.filter (keepChar isPr)).take MAX_TYPABLE_CHARS).length ≤ _
  rw [List.length_take]
  exact inf_le_left

/-- C5: `denormalize_coordinate` is total, equals
`floor(clamp(v, 0, 1000) / 1000 * d)`, lands in `[0, d]`, and takes the
spec's concrete values at the listed inputs. -/
theorem claim_C5 :
    (∀ (v : ℚ) (d : ℕ),
      denormalize_coordinate v d = ⌊max 0 (min 1000 v) / 1000 * (d : ℚ)⌋ ∧
      0 ≤ denormalize_coordinate v d ∧ denormalize_coordinate v d ≤ (d : ℤ)) ∧
    denormalize_coordinate 0 1440 = 0 ∧
    denormalize_coordinate 1000 1440 = 1440 ∧
    denormalize_coordinate 500 1440 = 720 ∧
    denormalize_coordinate 1500 1440 = 1440 ∧
    denormalize_coordinate (-100) 1440 = 0 ∧
    denormalize_coordinate (250.5 : ℚ) 1440 = 360 := by
  constructor
  · intro v d
    have hc0 : (0 : ℚ) ≤ max 0 (min 1000 v) := le_max_left _ _
    have hc1000 : max 0 (min 1000 v) ≤ 1000 := max_le (by norm_num) (min_le_left _ _)
    have hq0 : (0 : ℚ) ≤ max 0 (min 1000 v) / 1000 * (d : ℚ) :=
      mul_nonneg (div_nonneg hc0 (by norm_num)) (Nat.cast_nonneg d)
    have hqd : max 0 (min 1000 v) / 1000 * (d : ℚ) ≤ (d : ℚ) := by
      calc max 0 (min 1000 v) / 1000 * (d : ℚ) ≤ 1 * (d : ℚ) :=
            mul_le_mul_of_nonneg_right ((div_le_one (by norm_num)).mpr hc1000)
              (Nat.cast_nonneg d)
        _ = (d : ℚ) := one_mul _
    have heq : denormalize_coordinate v d = ⌊max 0 (min 1000 v) / 1000 * (d : ℚ)⌋ := by
      show pyInt (max 0 (min 1000 v) / 1000 * (d : ℚ)) = _
      rw [pyInt, if_pos hq0]
    refine ⟨heq, ?_, ?_⟩
    · rw [heq]; exact Int.floor_nonneg.mpr hq0
    · rw [heq]
      calc ⌊max 0 (min 1000 v) / 1000 * (d : ℚ)⌋ ≤ ⌊(d : ℚ)⌋ := Int.floor_le_floor hqd
        _ = (d : ℤ) := Int.floor_natCast d
  refine ⟨?_, ?_, ?_, ?_, ?_, ?_⟩ <;>
    · simp only [denormalize_coordinate, pyInt]
      norm_num

/-- C6: `sanitize_text` maps an absent input to `""` and a non-absent
input to its textual form filtered to printable-or-whitespace characters,
in order, keeping at most the first 1024; concrete values match the
spec's examples (with the ASCII-exact printability table). -/
theorem claim_C6 :
    (∀ isPr : Char → Bool, sanitize_text isPr PyVal.none = "") ∧
    (∀ (isPr : Char → Bool) (t : PyVal), t ≠ PyVal.none →
      (sanitize_text isPr t).data =
        ((pyStr t).data.filter (keepChar isPr)).take MAX_TYPABLE_CHARS) ∧
    (∀ (isPr : Char → Bool) (t : PyVal) (c : Char),
      c ∈ (sanitize_text isPr t).data → keepChar isPr c = true) ∧
    (∀ (isPr : Char → Bool) (t : PyVal),
      (sanitize_text isPr t).length ≤ MAX_TYPABLE_CHARS) ∧
    sanitize_text asciiIsPrintable (PyVal.intVal 12345) = "12345" ∧
    sanitize_text asciiIsPrintable (PyVal.str "Hello\x00World\x01") = "HelloWorld" ∧
    (sanitize_text asciiIsPrintable
      (PyVal.str (String.mk (List.replicate 2000 'A')))).length = MAX_TYPABLE_CHARS ∧
    sanitize_text asciiIsPrintable (PyVal.str "a\nb\tc\rd") = "a\nb\tc\rd" := by
  refine ⟨fun isPr => rfl, ?_, fun isPr t c h => mem_sanitize h,
    sanitize_length_le, by decide, by decide, ?_, by decide⟩
  · intro isPr t ht
    rw [sanitize_data]
    cases t with
    | none => exact absurd rfl ht
    | str s => rfl
    | intVal n => rfl
    | floatVal q => rfl
    | boolVal b => rfl
  · rw [sanitize_eq_raw]
    show ((((String.mk (List.replicate 2000 'A')).data.filter
      (keepChar asciiIsPrintable)).take MAX_TYPABLE_CHARS).length) = MAX_TYPABLE_CHARS
    have hfilter : (List.replicate 2000 'A').filter (keepChar asciiIsPrintable) =
        List.replicate 2000 'A' :=
      List.filter_eq_self.mpr (fun a ha => by rw [List.eq_of_mem_replicate ha]; rfl)
    show (((List.replicate 2000 'A').filter
      (keepChar asciiIsPrintable)).take MAX_TYPABLE_CHARS).length = MAX_TYPABLE_CHARS
    rw [hfilter, List.take_replicate, List.length_replicate]
    decide

/-- C6 witness: the conditional conjuncts of `claim_C6` applied at the
concrete inputs `PyVal.intVal 7` and the character 'a' of a sanitized
string. -/
theorem claim_C6_witness :
    (sanitize_text asciiIsPrintable (PyVal.intVal 7)).data =
      ((pyStr (PyVal.intVal 7)).data.filter (keepChar asciiIsPrintable)).take
        MAX_TYPABLE_CHARS ∧
    keepChar asciiIsPrintable 'a' = true :=
  ⟨claim_C6.2.1 asciiIsPrintable (PyVal.intVal 7) (by decide),
   claim_C6.2.2.1 asciiIsPrintable (PyVal.str "a") 'a' (by decide)⟩

/-- C10: `sanitize_text` is idempotent — sanitizing an already sanitized
string changes nothing, for every printability table and every input. -/
theorem claim_C10 :
    ∀ (isPr : Char → Bool) (t : PyVal),
      sanitize_text isPr (PyVal.str (sanitize_text isPr t)) = sanitize_text isPr t := by
  intro isPr t
  rw [sanitize_eq_raw isPr t]
  show String.mk ((((String.mk (((rawText t).data.filter (keepChar isPr)).take
      MAX_TYPABLE_CHARS)).data.filter (keepChar isPr)).take MAX_TYPABLE_CHARS)) = _
  have hall : ∀ c ∈ ((rawText t).data.filter (keepChar isPr)).take MAX_TYPABLE_CHARS,
      keepChar isPr c = true :=
    fun c hc => (List.mem_filter.mp ((List.take_sublist _ _).subset hc)).2
  rw [show (String.mk (((rawText t).data.filter (keepChar isPr)).take
      MAX_TYPABLE_CHARS)).data = ((rawText t).data.filter (keepChar isPr)).take
      MAX_TYPABLE_CHARS from rfl]
  rw [List.filter_eq_self.mpr hall, List.take_take, min_self]

lemma execOne_fst (isPr : Char → Bool) (o : Oracle) (w h : ℕ) (hist : List Event)
    (fc : FunctionCall) : (execOne isPr o w h hist fc).1.1 = fc.name := by
  unfold execOne
  split
  · cases hD : dispatchEvents isPr w h fc.name fc.args with
    | error m => simp [hD]
    | ok evs =>
        cases hR : runEvents o hist evs with
        | mk h1 opt => cases opt <;> simp [hD, hR]
  · rfl

lemma execCallsList_cons (isPr : Char → Bool) (o : Oracle) (w h : ℕ) (hist : List Event)
    (fc : FunctionCall) (rest : List FunctionCall) :
    execCallsList isPr o w h hist (fc :: rest) =
      ((execOne isPr o w h hist fc).1 ::
          (execCallsList isPr o w h (execOne isPr o w h hist fc).2 rest).1,
        (execCallsList isPr o w h (execOne isPr o w h hist fc).2 rest).2) := rfl

lemma execCallsList_length (isPr : Char → Bool) (o : Oracle) (w h : ℕ) :
    ∀ (calls : List FunctionCall) (hist : List Event),
      ((execCallsList isPr o w h hist calls).1).length = calls.length := by
  intro calls
  induction calls with
  | nil => intro hist; rfl
  | cons fc rest ih =>
      intro hist
      rw [execCallsList_cons]
      simp only [List.length_cons, ih]

lemma execCallsList_map_name (isPr : Char → Bool) (o : Oracle) (w h : ℕ) :
    ∀ (calls : List FunctionCall) (hist : List Event),
      ((execCallsList isPr o w h hist calls).1).map Prod.fst =
        calls.map FunctionCall.name := by
  intro calls
  induction calls with
  | nil => intro hist; rfl
  | cons fc rest ih =>
      intro hist
      rw [execCallsList_cons]
      simp only [List.map_cons, execOne_fst, ih]

lemma execOne_raised {isPr : Char → Bool} {o : Oracle} {w h : ℕ} {hist hist1 : List Event}
    {fc : FunctionCall} {evs : List Event} {m : String}
    (hSafe : fc.name ∈ SAFE_ACTIONS)
    (hD : dispatchEvents isPr w h fc.name fc.args = Except.ok evs)
    (hR : runEvents o hist evs = (hist1, Option.some m)) :
    execOne isPr o w h hist fc = ((fc.name, ActionResult.error m), hist1) := by
  unfold execOne
  rw [if_pos hSafe]
  simp only [hD, hR]

lemma execOne_ok {isPr : Char → Bool} {o : Oracle} {w h : ℕ} {hist hist1 : List Event}
    {fc : FunctionCall} {evs : List Event}
    (hSafe : fc.name ∈ SAFE_ACTIONS)
    (hD : dispatchEvents isPr w h fc.name fc.args = Except.ok evs)
    (hR : runEvents o hist evs = (hist1, Option.none)) :
    execOne isPr o w h hist fc = ((fc.name, ActionResult.ok), hist1) := by
  unfold execOne
  rw [if_pos hSafe]
  simp only [hD, hR]

lemma execOne_unsupported {isPr : Char → Bool} {o : Oracle} {w h : ℕ} {hist : List Event}
    {fc : FunctionCall} (hns : fc.name ∉ SAFE_ACTIONS) :
    execOne isPr o w h hist fc =
      ((fc.name, ActionResult.error "unsupported_function"), hist) := by
  unfold execOne
  rw [if_neg hns]

lemma runEvents_none {o : Oracle} (ho : ∀ pre e, o pre e = Option.none) :
    ∀ (evs hist : List Event), runEvents o hist evs = (hist ++ evs, Option.none) := by
  intro evs
  induction evs with
  | nil => intro hist; simp [runEvents]
  | cons e es ih =>
      intro hist
      rw [runEvents, ho hist e, ih (hist ++ [e])]
      simp

lemma dispatchEvents_type {isPr : Char → Bool} {w h : ℕ} {args : List (String × PyVal)}
    {qx qy : ℚ}
    (hx : pyFloat (argGet args "x" (PyVal.intVal 0)) = Except.ok qx)
    (hy : pyFloat (argGet args "y" (PyVal.intVal 0)) = Except.ok qy) :
    dispatchEvents isPr w h "type_text_at" args =
      Except.ok (typeTextEvents isPr w h args qx qy) := by
  unfold dispatchEvents
  rw [if_neg (by decide), if_neg (by decide), if_pos rfl]
  simp only [hx, hy]
  rfl

/-- C2: the executor returns one `(name, result)` pair per collected
function call, with the names in the order the candidate proposed them;
the observation builder returns one response per result, names in the
same order. -/
theorem claim_C2 :
    (∀ (isPr : Char → Bool) (o : Oracle) (w h : ℕ) (cand : Candidate) (hist : List Event),
      ((execute_function_calls isPr o w h cand hist).1).map Prod.fst =
        (collect_function_calls cand).map FunctionCall.name) ∧
    (∀ (obs : ObsOracle) (hist : List Event) (results : List (String × ActionResult)),
      ((get_function_responses obs hist results).1).map FunctionResponse.name =
        results.map Prod.fst) := by
  constructor
  · intro isPr o w h cand hist
    exact execCallsList_map_name isPr o w h (collect_function_calls cand) hist
  · intro obs hist results
    show ((results.map _).map FunctionResponse.name) = _
    rw [List.map_map]
    rfl

/-- C3: a raised exception during one action's dispatch is converted into
that action's `{error: message}` result, the remaining actions of the
batch still run (from the trace the failed action left), and the executor
is total — every batch yields exactly one result per action. -/
theorem claim_C3 :
    (∀ (isPr : Char → Bool) (o : Oracle) (w h : ℕ) (hist : List Event)
        (calls : List FunctionCall),
      ((execCallsList isPr o w h hist calls).1).length = calls.length) ∧
    (∀ (isPr : Char → Bool) (o : Oracle) (w h : ℕ) (hist hist1 : List Event)
        (fc : FunctionCall) (rest : List FunctionCall) (evs : List Event) (m : String),
      fc.name ∈ SAFE_ACTIONS →
      dispatchEvents isPr w h fc.name fc.args = Except.ok evs →
      runEvents o hist evs = (hist1, Option.some m) →
      execCallsList isPr o w h hist (fc :: rest) =
        ((fc.name, ActionResult.error m) :: (execCallsList isPr o w h hist1 rest).1,
          (execCallsList isPr o w h hist1 rest).2)) := by
  constructor
  · intro isPr o w h hist calls
    exact execCallsList_length isPr o w h calls hist
  · intro isPr o w h hist hist1 fc rest evs m hSafe hD hR
    rw [execCallsList_cons, execOne_raised hSafe hD hR]

/-- C3 witness: the load-state wait of the first of two `open_web_browser`
actions raises "boom"; the first result is that error and the second
action still runs. -/
theorem claim_C3_witness :
    ({ name := "open_web_browser", args := [] } : FunctionCall).name ∈ SAFE_ACTIONS ∧
    dispatchEvents asciiIsPrintable 1440 900 "open_web_browser" [] =
      Except.ok [Event.waitForLoadState, Event.sleep] ∧
    runEvents oracleBoom [] [Event.waitForLoadState, Event.sleep] =
      ([Event.waitForLoadState], Option.some "boom") ∧
    execCallsList asciiIsPrintable oracleBoom 1440 900 []
        [{ name := "open_web_browser", args := [] }, { name := "open_web_browser", args := [] }] =
      (("open_web_browser", ActionResult.error "boom") ::
          (execCallsList asciiIsPrintable oracleBoom 1440 900 [Event.waitForLoadState]
            [{ name := "open_web_browser", args := [] }]).1,
        (execCallsList asciiIsPrintable oracleBoom 1440 900 [Event.waitForLoadState]
          [{ name := "open_web_browser", args := [] }]).2) :=
  ⟨by decide, rfl, rfl,
    claim_C3.2 asciiIsPrintable oracleBoom 1440 900 [] [Event.waitForLoadState]
      { name := "open_web_browser", args := [] } [{ name := "open_web_browser", args := [] }]
      [Event.waitForLoadState, Event.sleep] "boom" (by decide) rfl rfl⟩

/-- C4: an action whose name is outside the allow-list yields
`{error: "unsupported_function"}`, attempts no page call at all (the
trace is unchanged), and the batch continues with the next action. -/
theorem claim_C4 :
    ∀ (isPr : Char → Bool) (o : Oracle) (w h : ℕ) (hist : List Event)
      (fc : FunctionCall) (rest : List FunctionCall),
      fc.name ∉ SAFE_ACTIONS →
      execOne isPr o w h hist fc =
        ((fc.name, ActionResult.error "unsupported_function"), hist) ∧
      execCallsList isPr o w h hist (fc :: rest) =
        ((fc.name, ActionResult.error "unsupported_function") ::
            (execCallsList isPr o w h hist rest).1,
          (execCallsList isPr o w h hist rest).2) := by
  intro isPr o w h hist fc rest hns
  have h1 : execOne isPr o w h hist fc =
      ((fc.name, ActionResult.error "unsupported_function"), hist) :=
    execOne_unsupported hns
  exact ⟨h1, by rw [execCallsList_cons, h1]⟩

/-- C4 witness: a `scroll_document` action errors as unsupported, leaves
the trace untouched, and the following action still runs. -/
theorem claim_C4_witness :
    ({ name := "scroll_document", args := [] } : FunctionCall).name ∉ SAFE_ACTIONS ∧
    execOne asciiIsPrintable oracleNone 1440 900 [Event.goto]
        { name := "scroll_document", args := [] } =
      (("scroll_document", ActionResult.error "unsupported_function"), [Event.goto]) ∧
    execCallsList asciiIsPrintable oracleNone 1440 900 [Event.goto]
        [{ name := "scroll_document", args := [] }, { name := "open_web_browser", args := [] }] =
      (("scroll_document", ActionResult.error "unsupported_function") ::
          (execCallsList asciiIsPrintable oracleNone 1440 900 [Event.goto]
            [{ name := "open_web_browser", args := [] }]).1,
        (execCallsList asciiIsPrintable oracleNone 1440 900 [Event.goto]
          [{ name := "open_web_browser", args := [] }]).2) := by
  have h := claim_C4 asciiIsPrintable oracleNone 1440 900 [Event.goto]
    { name := "scroll_document", args := [] } [{ name := "open_web_browser", args := [] }]
    (by decide)
  exact ⟨by decide, h.1, h.2⟩

/-- C7: a `type_text_at` action performs, in order, the focus click at the
denormalized pixel, select-all, delete, one type event with the sanitized
text, and an Enter key press exactly when the press-enter flag is truthy;
the performed key presses number 3 with the flag and 2 without. -/
theorem claim_C7 :
    ∀ (isPr : Char → Bool) (o : Oracle) (w h : ℕ) (hist : List Event)
      (args : List (String × PyVal)) (qx qy : ℚ),
      pyFloat (argGet args "x" (PyVal.intVal 0)) = Except.ok qx →
      pyFloat (argGet args "y" (PyVal.intVal 0)) = Except.ok qy →
      (∀ pre e, o pre e = Option.none) →
      execOne isPr o w h hist { name := "type_text_at", args := args } =
        (("type_text_at", ActionResult.ok), hist ++ typeTextEvents isPr w h args qx qy) ∧
      (typeTextEvents isPr w h args qx qy).countP isKeyPress =
        (if pyTruthy (argGet args "press_enter" (PyVal.boolVal false)) then 3 else 2) := by
  intro isPr o w hh hist args qx qy hx hy ho
  constructor
  · have hSafe : ({ name := "type_text_at", args := args } : FunctionCall).name ∈
        SAFE_ACTIONS := by
      show "type_text_at" ∈ SAFE_ACTIONS
      decide
    exact execOne_ok hSafe (dispatchEvents_type hx hy)
      (runEvents_none ho (typeTextEvents isPr w hh args qx qy) hist)
  · cases hpe : pyTruthy (argGet args "press_enter" (PyVal.boolVal false)) <;>
      simp [typeTextEvents, hpe, List.countP_append, List.countP_cons, isKeyPress]

/-- C7 witness: a concrete `type_text_at` at (100, 200) with text "hi"
and press-enter set issues the full sequence and 3 key presses. -/
theorem claim_C7_witness :
    pyFloat (argGet argsTypeEnter "x" (PyVal.intVal 0)) = Except.ok (100 : ℚ) ∧
    pyFloat (argGet argsTypeEnter "y" (PyVal.intVal 0)) = Except.ok (200 : ℚ) ∧
    execOne asciiIsPrintable oracleNone 1440 900 []
        { name := "type_text_at", args := argsTypeEnter } =
      (("type_text_at", ActionResult.ok),
        [] ++ typeTextEvents asciiIsPrintable 1440 900 argsTypeEnter 100 200) ∧
    (typeTextEvents asciiIsPrintable 1440 900 argsTypeEnter 100 200).countP isKeyPress = 3 := by
  have h := claim_C7 asciiIsPrintable oracleNone 1440 900 [] argsTypeEnter 100 200
    rfl rfl (fun _ _ => rfl)
  exact ⟨rfl, rfl, h.1, by rw [h.2]; rfl⟩

/-- C8: an observation batch appends exactly one screenshot capture and
one location read to the trace; every one of the N results yields an
entry; all entries share one image (empty when the capture raised) and
each carries the shared url alongside its own status/error fields. -/
theorem claim_C8 :
    ∀ (obs : ObsOracle) (hist : List Event) (results : List (String × ActionResult)),
      (get_function_responses obs hist results).2 =
        hist ++ [Event.screenshot, Event.readUrl] ∧
      ((get_function_responses obs hist results).1).length = results.length ∧
      ((get_function_responses obs hist results).1).map FunctionResponse.imageData =
        List.replicate results.length
          (match obs.shot hist with | Except.ok b => b | Except.error _ => []) ∧
      ((get_function_responses obs hist results).1).map FunctionResponse.response =
        results.map (fun nr =>
          ("url", obs.url (hist ++ [Event.screenshot])) :: resultFields nr.2) := by
  intro obs hist results
  refine ⟨?_, ?_, ?_, ?_⟩
  · show (hist ++ [Event.screenshot]) ++ [Event.readUrl] = _
    simp
  · show (results.map _).length = _
    rw [List.length_map]
  · show (results.map _).map FunctionResponse.imageData = _
    rw [List.map_map, ← List.map_const']
    rfl
  · show (results.map _).map FunctionResponse.response = _
    rw [List.map_map]
    rfl

lemma proposesActions_reply_cons {cand : Candidate} {rest : List Candidate}
    (h : (candParts cand.content).any (fun p => (partFunctionCall p).isSome) = true) :
    proposesActions (ModelOutcome.reply (cand :: rest)) := h

lemma runLoop_raise {env : RunEnv} {w h fuel turn : ℕ} {contents : List (Option Content)}
    {trace : List Event} {mc ae : ℕ} {m : String}
    (hM : env.model turn = ModelOutcome.raise m) :
    runLoop env w h (fuel + 1) turn contents trace mc ae =
      { modelCalls := mc + 1, actionsExecuted := ae, browserClosed := true,
        outcome := RunOutcome.stoppedError, finalText := Option.none,
        trace := trace, contents := contents } := by
  rw [runLoop]
  simp only [hM]

lemma runLoop_modelCalls_le (env : RunEnv) (w h : ℕ) :
    ∀ (fuel turn : ℕ) (contents : List (Option Content)) (trace : List Event) (mc ae : ℕ),
      (runLoop env w h fuel turn contents trace mc ae).modelCalls ≤ mc + fuel := by
  intro fuel
  induction fuel with
  | zero =>
      intro turn contents trace mc ae
      simp [runLoop]
  | succ fuel ih =>
      intro turn contents trace mc ae
      rw [runLoop]
      cases hM : env.model turn with
      | raise m => dsimp only; omega
      | reply cands =>
          cases cands with
          | nil => dsimp only; omega
          | cons cand rest =>
              dsimp only
              by_cases hA :
                  (candParts cand.content).any (fun p => (partFunctionCall p).isSome) = true
              · rw [if_pos hA]
                refine le_trans (ih _ _ _ _ _) ?_
                omega
              · rw [if_neg hA]
                dsimp only
                omega

lemma runLoop_closed (env : RunEnv) (w h : ℕ) :
    ∀ (fuel turn : ℕ) (contents : List (Option Content)) (trace : List Event) (mc ae : ℕ),
      (runLoop env w h fuel turn contents trace mc ae).browserClosed = true := by
  intro fuel
  induction fuel with
  | zero =>
      intro turn contents trace mc ae
      rfl
  | succ fuel ih =>
      intro turn contents trace mc ae
      rw [runLoop]
      cases hM : env.model turn with
      | raise m => rfl
      | reply cands =>
          cases cands with
          | nil => rfl
          | cons cand rest =>
              dsimp only
              by_cases hA :
                  (candParts cand.content).any (fun p => (partFunctionCall p).isSome) = true
              · rw [if_pos hA]
                exact ih _ _ _ _ _
              · rw [if_neg hA]

lemma runLoop_budget (env : RunEnv) (w h : ℕ) :
    ∀ (fuel turn : ℕ) (contents : List (Option Content)) (trace : List Event) (mc ae : ℕ),
      (∀ t, turn ≤ t → t < turn + fuel → proposesActions (env.model t)) →
      (runLoop env w h fuel turn contents trace mc ae).modelCalls = mc + fuel ∧
      (runLoop env w h fuel turn contents trace mc ae).outcome = RunOutcome.stoppedBudget := by
  intro fuel
  induction fuel with
  | zero =>
      intro turn contents trace mc ae hAll
      exact ⟨rfl, rfl⟩
  | succ fuel ih =>
      intro turn contents trace mc ae hAll
      have hP : proposesActions (env.model turn) := hAll turn (le_refl turn) (by omega)
      rw [runLoop]
      cases hM : env.model turn with
      | raise m =>
          rw [hM] at hP
          exact hP.elim
      | reply cands =>
          cases cands with
          | nil =>
              rw [hM] at hP
              exact hP.elim
          | cons cand rest =>
              rw [hM] at hP
              have hA : (candParts cand.content).any
                  (fun p => (partFunctionCall p).isSome) = true := hP
              dsimp only
              rw [if_pos hA]
              have hNext : ∀ t, turn + 1 ≤ t → t < turn + 1 + fuel →
                  proposesActions (env.model t) :=
                fun t h1 h2 => hAll t (by omega) (by omega)
              obtain ⟨e1, e2⟩ := ih (turn + 1) _ _ (mc + 1) _ hNext
              exact ⟨by rw [e1]; omega, e2⟩

/-- C1: a run makes at most `MAX_TURNS = 5` model calls; when navigation
succeeds and the model proposes actions on every one of the 5 turns, the
model is called exactly 5 times and the run stops on the exhausted budget
with no further model call. -/
theorem claim_C1 :
    ∀ (env : RunEnv) (prompt : String),
      (run_agent env prompt).modelCalls ≤ MAX_TURNS ∧
      (∀ b : List UInt8, env.gotoErr = Option.none →
        env.obs.shot [Event.goto] = Except.ok b →
        (∀ t, 1 ≤ t → t ≤ MAX_TURNS → proposesActions (env.model t)) →
        (run_agent env prompt).modelCalls = MAX_TURNS ∧
        (run_agent env prompt).outcome = RunOutcome.stoppedBudget) := by
  intro env prompt
  constructor
  · unfold run_agent
    cases hG : env.gotoErr with
    | some m => simp
    | none =>
        cases hS : env.obs.shot [Event.goto] with
        | error m => simp [hS]
        | ok b =>
            simp only [hS]
            refine le_trans (runLoop_modelCalls_le env _ _ MAX_TURNS 1 _ _ 0 0) ?_
            omega
  · intro b hG hS hAll
    unfold run_agent
    rw [hG]
    simp only [hS]
    have hNext : ∀ t, 1 ≤ t → t < 1 + MAX_TURNS → proposesActions (env.model t) :=
      fun t h1 h2 => hAll t h1 (by omega)
    obtain ⟨e1, e2⟩ := runLoop_budget env SCREEN_WIDTH SCREEN_HEIGHT MAX_TURNS 1 _ _ 0 0 hNext
    exact ⟨by rw [e1]; omega, e2⟩

/-- C1 witness: in an environment where every reply proposes an
`open_web_browser` action, the run makes exactly 5 model calls and stops
on the budget. -/
theorem claim_C1_witness :
    envAllActions.gotoErr = Option.none ∧
    envAllActions.obs.shot [Event.goto] = Except.ok [] ∧
    (run_agent envAllActions "p").modelCalls = MAX_TURNS ∧
    (run_agent envAllActions "p").outcome = RunOutcome.stoppedBudget := by
  have h := (claim_C1 envAllActions "p").2 [] rfl rfl
    (fun t h1 h2 => proposesActions_reply_cons (by decide))
  exact ⟨rfl, rfl, h.1, h.2⟩

/-- C9: the browser is released on every exit path of a run; in
particular, when the very first model call raises, the run stops after
that one call with zero actions executed and the browser still closed. -/
theorem claim_C9 :
    ∀ (env : RunEnv) (prompt : String),
      (run_agent env prompt).browserClosed = true ∧
      (∀ (b : List UInt8) (m : String), env.gotoErr = Option.none →
        env.obs.shot [Event.goto] = Except.ok b →
        env.model 1 = ModelOutcome.raise m →
        (run_agent env prompt).modelCalls = 1 ∧
        (run_agent env prompt).actionsExecuted = 0 ∧
        (run_agent env prompt).outcome = RunOutcome.stoppedError) := by
  intro env prompt
  constructor
  · unfold run_agent
    cases hG : env.gotoErr with
    | some m => rfl
    | none =>
        cases hS : env.obs.shot [Event.goto] with
        | error m => simp [hS]
        | ok b =>
            simp only [hS]
            exact runLoop_closed env _ _ MAX_TURNS 1 _ _ 0 0
  · intro b m hG hS hM
    unfold run_agent
    rw [hG]
    simp only [hS]
    rw [show (MAX_TURNS : ℕ) = 4 + 1 from rfl, runLoop_raise hM]
    exact ⟨rfl, rfl, rfl⟩

/-- C9 witness: the first model call raises a transport error; the run
records one model call, zero actions, a stopped-on-error outcome, and a
closed browser. -/
theorem claim_C9_witness :
    envModelRaises.model 1 = ModelOutcome.raise "503 transport error" ∧
    (run_agent envModelRaises "p").browserClosed = true ∧
    (run_agent envModelRaises "p").modelCalls = 1 ∧
    (run_agent envModelRaises "p").actionsExecuted = 0 ∧
    (run_agent envModelRaises "p").outcome = RunOutcome.stoppedError := by
  have h := claim_C9 envModelRaises "p"
  have h2 := h.2 [] "503 transport error" rfl rfl rfl
  exact ⟨rfl, h.1, h2.1, h2.2.1, h2.2.2⟩

end CUA
